import Mathlib

/-!
Verification development for the JS8Chess game-session controller.

The Python sources are shallowly embedded as Lean definitions:

* `protocol.py` (the OTA codec) is embedded concretely over `List Char`
  (Python `str` values are modelled as lists of characters; `str.upper`,
  `str.strip`, `str.startswith`, slicing and the anchored regular
  expressions are modelled by the corresponding list functions below).
* `game.py` and `engine.py` are embedded parametrically over the interface
  of the external chess-rules library (python-chess), which the spec
  declares out of scope.  The `Rules` structure below captures exactly the
  operations the sources call: board creation, legality test, push,
  UCI parsing and printing, and side to move.
* I/O effects (UCI output lines, radio transmissions) are reified as an
  `Effect` trace; the PGN file at the session path is modelled by a
  `disk` component of the session state.
-/

namespace JS8Chess

/-- Characters of a Lean string literal; used to write `str` literals of the
Python sources as `List Char`. -/
def str (s : String) : List Char := s.toList

/-- Model of `str.upper` on a single ASCII character. -/
def upperChar (c : Char) : Char :=
  if 'a' ≤ c ∧ c ≤ 'z' then Char.ofNat (c.toNat - 32) else c

/-- Model of `str.lower` on a single ASCII character. -/
def lowerChar (c : Char) : Char :=
  if 'A' ≤ c ∧ c ≤ 'Z' then Char.ofNat (c.toNat + 32) else c

/-- Model of `str.upper`. -/
def upperL (l : List Char) : List Char := l.map upperChar

/-- Model of `str.lower`. -/
def lowerL (l : List Char) : List Char := l.map lowerChar

/-- Whitespace characters stripped by `str.strip` and matched by `\s`. -/
def isSpaceChar (c : Char) : Bool :=
  decide (c = ' ' ∨ c = '\t' ∨ c = '\n' ∨ c = '\r' ∨ c = '\x0b' ∨ c = '\x0c')

/-- Decimal digit test, as in the regex class `\d`. -/
def isDigitChar (c : Char) : Bool := decide ('0' ≤ c ∧ c ≤ '9')

/-- Model of `str.strip` (drop leading and trailing whitespace). -/
def stripL (l : List Char) : List Char :=
  ((l.dropWhile isSpaceChar).reverse.dropWhile isSpaceChar).reverse

/-- Model of `str.startswith`. -/
def startsWithL (l p : List Char) : Bool := l.take p.length == p

/-- Decimal digit character of a value below ten (rendering of `str(int)`). -/
def toDigitChar (d : Nat) : Char :=
  match d with
  | 0 => '0' | 1 => '1' | 2 => '2' | 3 => '3' | 4 => '4'
  | 5 => '5' | 6 => '6' | 7 => '7' | 8 => '8' | 9 => '9'
  | _ => '*'

/-- Decimal rendering with an explicit fuel bound (structural recursion,
so that concrete frames evaluate inside the kernel). -/
def natStrGo (fuel : Nat) (n : Nat) : List Char :=
  match fuel with
  | 0 => []
  | fuel + 1 =>
    if n < 10 then [toDigitChar n]
    else natStrGo fuel (n / 10) ++ [toDigitChar (n % 10)]

/-- Model of Python `str(n)` for a non-negative integer `n` (used by the
f-string formatters). -/
def natStr (n : Nat) : List Char := natStrGo (n + 1) n

/-- Numeric value of a digit character. -/
def charVal (c : Char) : Nat := c.toNat - 48

/-- Model of Python `int(s)` on a string of decimal digits. -/
def digitsToNat (l : List Char) : Nat :=
  l.foldl (fun a c => 10 * a + charVal c) 0

end JS8Chess

namespace JS8Chess

/-! ## Protocol codec (src/js8chess/protocol.py) -/

/-- `MsgType` enumeration of protocol.py. -/
inductive MsgType where
  | new_proposal
  | acceptance
  | move
  | ack
  | error
  | resync_request
  | resync_ok
  | unknown
  deriving DecidableEq, Inhabited

/-- Error code constants of protocol.py. -/
def errIllegalMove : List Char := str "ERR01"

/-- `ERR_BAD_MOVE_NUM`. -/
def errBadMoveNum : List Char := str "ERR02"

/-- `ERR_NO_SESSION`. -/
def errNoSession : List Char := str "ERR03"

/-- `ERR_PARSE`. -/
def errParse : List Char := str "ERR04"

/-- `ERR_DESYNC`. -/
def errDesync : List Char := str "ERR05"

/-- `ERR_DESCRIPTIONS.get(code, "")`. -/
def errDescription (code : List Char) : List Char :=
  if code = errIllegalMove then str "Illegal move"
  else if code = errBadMoveNum then str "Unexpected move number"
  else if code = errNoSession then str "Not in active session"
  else if code = errParse then str "Protocol parse error"
  else if code = errDesync then str "State desync detected"
  else []

/-- The `OTAMessage` dataclass of protocol.py.  Optional fields default to
`None` in the source; here every construction spells all fields out. -/
structure OTAMessage where
  from_call : List Char
  to_call : List Char
  msg_type : MsgType
  color : Option (List Char)
  timestamp : Option (List Char)
  move_num : Option Nat
  move : Option (List Char)
  error_code : Option (List Char)
  resync_move_num : Option Nat
  deriving DecidableEq

/-- Regex `NEW ([WB])` (full match): returns the captured color. -/
def matchNew (p : List Char) : Option Char :=
  match p with
  | [a, b, c, d, e] =>
    if a = 'N' ∧ b = 'E' ∧ c = 'W' ∧ d = ' ' ∧ (e = 'W' ∨ e = 'B')
    then some e else none
  | _ => none

/-- Regex `(\d{12}) ([WB])` (full match): timestamp and color. -/
def matchAcceptance (p : List Char) : Option (List Char × Char) :=
  let ts := p.take 12
  if ts.length = 12 ∧ ts.all isDigitChar then
    match p.drop 12 with
    | [sp, c] =>
      if sp = ' ' ∧ (c = 'W' ∨ c = 'B') then some (ts, c) else none
    | _ => none
  else none

/-- Regex `(ERR0[1-5])\s*>?` (full match): the captured error code. -/
def matchError (p : List Char) : Option (List Char) :=
  if p.take 4 = str "ERR0" then
    match p.drop 4 with
    | d :: rest =>
      if ('1' ≤ d ∧ d ≤ '5') ∧
          (let r := rest.dropWhile isSpaceChar; r = [] ∨ r = ['>'])
      then some (str "ERR0" ++ [d]) else none
    | [] => none
  else none

/-- Common tail `\d{12} MN=(\d+)` of the two resync regexes: timestamp and
the numeric value of the `MN=` group. -/
def matchRsTail (t : List Char) : Option (List Char × Nat) :=
  let ts := t.take 12
  if ts.length = 12 ∧ ts.all isDigitChar then
    if (t.drop 12).take 4 = str " MN=" then
      let ds := (t.drop 12).drop 4
      if ds ≠ [] ∧ ds.all isDigitChar then some (ts, digitsToNat ds) else none
    else none
  else none

/-- Regex `RS (\d{12}) MN=(\d+)` (full match). -/
def matchRS (p : List Char) : Option (List Char × Nat) :=
  if p.take 3 = str "RS " then matchRsTail (p.drop 3) else none

/-- Regex `OK RS (\d{12}) MN=(\d+)` (full match). -/
def matchOkRS (p : List Char) : Option (List Char × Nat) :=
  if p.take 6 = str "OK RS " then matchRsTail (p.drop 6) else none

/-- Move-coordinate checks of the regex `[A-H][1-8][A-H][1-8]`. -/
def isFileChar (c : Char) : Prop := 'A' ≤ c ∧ c ≤ 'H'

/-- Rank character check `[1-8]`. -/
def isRankChar (c : Char) : Prop := '1' ≤ c ∧ c ≤ '8'

instance (c : Char) : Decidable (isFileChar c) := by unfold isFileChar; infer_instance
instance (c : Char) : Decidable (isRankChar c) := by unfold isRankChar; infer_instance

/-- Regex `(\d+)([A-H][1-8][A-H][1-8][QRBN]?)` (full match): the move number
value and the raw (uppercase) coordinate-move characters.  The digit group is
the maximal digit run since the move group cannot start with a digit. -/
def matchMove (p : List Char) : Option (Nat × List Char) :=
  let ds := p.takeWhile isDigitChar
  let rest := p.dropWhile isDigitChar
  if ds = [] then none
  else
    match rest with
    | [a, b, c, d] =>
      if isFileChar a ∧ isRankChar b ∧ isFileChar c ∧ isRankChar d
      then some (digitsToNat ds, [a, b, c, d]) else none
    | [a, b, c, d, e] =>
      if isFileChar a ∧ isRankChar b ∧ isFileChar c ∧ isRankChar d ∧
          (e = 'Q' ∨ e = 'R' ∨ e = 'B' ∨ e = 'N')
      then some (digitsToNat ds, [a, b, c, d, e]) else none
    | _ => none

/-- The payload-classification chain of `parse_message` (the sequence of
`re.fullmatch` attempts after the prefix has been removed), in source order:
ACK, NEW, ACCEPTANCE, ERROR, RS, OK RS, MOVE, otherwise UNKNOWN. -/
def parsePayload (remote locl : List Char) (payload : List Char) : OTAMessage :=
  if payload = str ">" ∨ payload = [] then
    ⟨remote, locl, .ack, none, none, none, none, none, none⟩
  else
    match matchNew payload with
    | some c => ⟨remote, locl, .new_proposal, some [c], none, none, none, none, none⟩
    | none =>
    match matchAcceptance payload with
    | some (ts, c) => ⟨remote, locl, .acceptance, some [c], some ts, none, none, none, none⟩
    | none =>
    match matchError payload with
    | some code => ⟨remote, locl, .error, none, none, none, none, some code, none⟩
    | none =>
    match matchRS payload with
    | some (ts, n) => ⟨remote, locl, .resync_request, none, some ts, none, none, none, some n⟩
    | none =>
    match matchOkRS payload with
    | some (ts, n) => ⟨remote, locl, .resync_ok, none, some ts, none, none, none, some n⟩
    | none =>
    match matchMove payload with
    | some (n, mv) => ⟨remote, locl, .move, none, none, some n, some (lowerL mv), none, none⟩
    | none => ⟨remote, locl, .unknown, none, none, none, none, none, none⟩

/-- `parse_message(raw_text, local_call, remote_call, from_call)` of
protocol.py.  Returns `none` when the message is not a JS8Chess message
directed to us. -/
def parse_message (raw_text local_call remote_call from_call : List Char) :
    Option OTAMessage :=
  let text := upperL (stripL raw_text)
  let locl := upperL local_call
  let remote := upperL remote_call
  let pfx := remote ++ str " " ++ locl ++ str " JS8CHESS"
  let text2 : Option (List Char) :=
    if startsWithL text pfx then some text
    else
      let barePfx := locl ++ str " JS8CHESS"
      if startsWithL text barePfx then some (remote ++ str " " ++ text) else none
  match text2 with
  | none => none
  | some text =>
    if from_call ≠ [] ∧ upperL from_call ≠ remote then none
    else
      let payload := stripL (text.drop pfx.length)
      some (parsePayload remote locl payload)

/-- `fmt_new_proposal`: REMOTE LOCAL JS8CHESS NEW W/B. -/
def fmt_new_proposal (locl remote color : List Char) : List Char :=
  remote ++ str " " ++ locl ++ str " JS8CHESS NEW " ++ upperL color

/-- `fmt_acceptance`: LOCAL REMOTE JS8CHESS YYYYMMDDHHMM W/B. -/
def fmt_acceptance (locl remote timestamp color : List Char) : List Char :=
  locl ++ str " " ++ remote ++ str " JS8CHESS " ++ timestamp ++ str " " ++ upperL color

/-- `fmt_move`: REMOTE LOCAL JS8CHESS MOVENUM-then-MOVE. -/
def fmt_move (locl remote : List Char) (move_num : Nat) (move_uci : List Char) :
    List Char :=
  remote ++ str " " ++ locl ++ str " JS8CHESS " ++ natStr move_num ++ upperL move_uci

/-- `fmt_error`: REMOTE LOCAL JS8CHESS ERR0X GT. -/
def fmt_error (locl remote code : List Char) : List Char :=
  remote ++ str " " ++ locl ++ str " JS8CHESS " ++ code ++ str " >"

/-- `fmt_resync_request`: REMOTE LOCAL JS8CHESS RS YYYYMMDDHHMM MN=N. -/
def fmt_resync_request (locl remote timestamp : List Char) (move_num : Nat) :
    List Char :=
  remote ++ str " " ++ locl ++ str " JS8CHESS RS " ++ timestamp ++ str " MN=" ++
    natStr move_num

/-- `fmt_resync_ok`: LOCAL REMOTE JS8CHESS OK RS YYYYMMDDHHMM MN=N. -/
def fmt_resync_ok (locl remote timestamp : List Char) (move_num : Nat) :
    List Char :=
  locl ++ str " " ++ remote ++ str " JS8CHESS OK RS " ++ timestamp ++ str " MN=" ++
    natStr move_num

end JS8Chess

namespace JS8Chess

/-! ## Game session (src/js8chess/game.py)

The chess rules engine (python-chess) is an external collaborator of the
core; the spec specifies it only through the interface the core consumes.
`Rules` packages exactly the operations `game.py` and `engine.py` call on
it.  `Move` models `chess.Move`, `Board` the position component of
`chess.Board` (its `move_stack` is modelled by the `moveStack` field of the
session, which mirrors it). -/

structure Rules (Move Board : Type) where
  /-- `chess.Board()`: the initial position. -/
  init : Board
  /-- `board.turn` (`chess.WHITE` is `true`). -/
  turn : Board → Bool
  /-- `move in board.legal_moves`. -/
  legal : Board → Move → Bool
  /-- `board.push(move)`. -/
  push : Board → Move → Board
  /-- `chess.Move.from_uci(s)`; `none` models the raised parse error. -/
  fromUci : List Char → Option Move
  /-- `move.uci()`. -/
  uciOf : Move → List Char

/-- State of a `GameSession` object together with the PGN file at its
`pgn_path`.  `moveStack` mirrors `board.move_stack`; `pgnMain` is the
mainline of the in-memory `_pgn_game` document; `pgnNode` is the mainline
ply index of `_pgn_node` (a node off the mainline, as produced by a
truncating resync followed by `add_variation`, leaves the saved mainline
unchanged, which is all later operations observe).  `disk` is the content
of the file at `pgn_path`: `none` = missing, `some none` = present but not
parseable by `chess.pgn.read_game`, `some (some ms)` = parses to a game
with mainline `ms`.  Headers of the PGN document are not modelled; no
claim observes them. -/
structure GameSession (Move Board : Type) where
  gameId : List Char
  localCallsign : List Char
  remoteCallsign : List Char
  localColor : Bool
  remoteColor : Bool
  board : Board
  moveStack : List Move
  pgnMain : List Move
  pgnNode : Nat
  disk : Option (Option (List Move))
  deriving DecidableEq

variable {Move Board : Type}

/-- `GameSession.__init__`: empty board, empty document, callsigns
uppercased, `remote_color = not local_color`.  The constructor does not
write the PGN file, so the file at the (fresh, timestamped) path is
missing. -/
def GameSession.new (r : Rules Move Board) (game_id local_callsign remote_callsign : List Char)
    (local_color : Bool) : GameSession Move Board :=
  ⟨game_id, upperL local_callsign, upperL remote_callsign, local_color, !local_color,
    r.init, [], [], 0, none⟩

/-- `expected_move_num` property: `len(self.board.move_stack) + 1`. -/
def expected_move_num (s : GameSession Move Board) : Nat :=
  s.moveStack.length + 1

/-- `is_local_turn`. -/
def is_local_turn (r : Rules Move Board) (s : GameSession Move Board) : Bool :=
  r.turn s.board == s.localColor

/-- `move_list_uci`: all played moves as lowercase UCI strings. -/
def move_list_uci (r : Rules Move Board) (s : GameSession Move Board) : List (List Char) :=
  s.moveStack.map r.uciOf

/-- `validate_move`: true iff the string parses and the move is legal. -/
def validate_move (r : Rules Move Board) (s : GameSession Move Board)
    (uci_move : List Char) : Bool :=
  match r.fromUci uci_move with
  | none => false
  | some m => r.legal s.board m

/-- `apply_move`: push to the board, `add_variation` on the PGN node, save
the PGN file; `false` (with no state change) if the string does not parse
or the move is illegal.  A save failure is logged and swallowed in the
source, so saving always updates `disk` here. -/
def apply_move (r : Rules Move Board) (s : GameSession Move Board)
    (uci_move : List Char) : GameSession Move Board × Bool :=
  match r.fromUci uci_move with
  | none => (s, false)
  | some m =>
    if r.legal s.board m then
      let pgnMain' := if s.pgnNode = s.pgnMain.length then s.pgnMain ++ [m] else s.pgnMain
      let pgnNode' := if s.pgnNode = s.pgnMain.length then s.pgnNode + 1 else s.pgnNode
      ({ s with board := r.push s.board m,
                moveStack := s.moveStack ++ [m],
                pgnMain := pgnMain',
                pgnNode := pgnNode',
                disk := some (some pgnMain') }, true)
    else (s, false)

/-- `restore_to_ply(target_ply)`: reload the PGN file, replay its mainline
onto a fresh board stopping once `target_ply` plies are applied, and adopt
board, document and node.  Fails (state unchanged) when the file is
missing or does not parse. -/
def restore_to_ply (r : Rules Move Board) (s : GameSession Move Board)
    (target_ply : Nat) : GameSession Move Board × Bool :=
  match s.disk with
  | none => (s, false)
  | some none => (s, false)
  | some (some ms) =>
    let taken := ms.take target_ply
    ({ s with board := taken.foldl r.push r.init,
              moveStack := taken,
              pgnMain := ms,
              pgnNode := taken.length }, true)

/-- Session states reachable from a fresh session through the mutating
operations of `GameSession` (creation, move application, resync
restoration). -/
inductive ReachableSession (r : Rules Move Board) : GameSession Move Board → Prop where
  | new (gid lc rc : List Char) (col : Bool) :
      ReachableSession r (GameSession.new r gid lc rc col)
  | apply (s : GameSession Move Board) (uci : List Char) :
      ReachableSession r s → ReachableSession r (apply_move r s uci).1
  | restore (s : GameSession Move Board) (n : Nat) :
      ReachableSession r s → ReachableSession r (restore_to_ply r s n).1

end JS8Chess

namespace JS8Chess

/-! ## Controller (src/js8chess/engine.py)

The controller is embedded as pure transition functions over an `Engine`
record, with UCI output lines and radio transmissions reified as an
`Effect` trace.  `now_timestamp()` is passed in as a parameter `now` (the
codec consults the clock only through that function). -/

/-- `EngineState` enumeration. -/
inductive EngineState where
  | no_game
  | proposal_sent
  | awaiting_proposal
  | game_active
  | game_over
  deriving DecidableEq, Inhabited

/-- Observable side effects of the controller: a line printed to UCI
stdout (`_uci_out`), or a directed message handed to the radio bridge
(`self._bridge.send(to, text)`). -/
inductive Effect where
  | uciOut (line : List Char)
  | send (dest text : List Char)
  deriving DecidableEq

/-- `Config` (src/js8chess/config.py). -/
structure Config where
  local_callsign : List Char
  remote_callsign : List Char
  js8_host : List Char
  js8_port : Nat
  ack_wait_seconds : Int
  move_response_wait_seconds : Int
  max_retries : Nat
  auto_accept : Bool

variable {Move Board : Type}

/-- The `state_lock`-protected mutable state of `JS8ChessEngine`: engine
state, optional game session, and the front-end position cache
(`_last_position_moves`). -/
structure Engine (Move Board : Type) where
  state : EngineState
  game : Option (GameSession Move Board)
  lastPositionMoves : List (List Char)
  deriving DecidableEq

/-- `_send_error`: an info line and the formatted `ERR0x` frame to the
remote. -/
def sendErrorEffects (cfg : Config) (code : List Char) : List Effect :=
  [Effect.uciOut (str "info string TX error " ++ code ++ str ": " ++ errDescription code),
   Effect.send cfg.remote_callsign (fmt_error cfg.local_callsign cfg.remote_callsign code)]

/-- `_handle_resync_request`: checks the session, the game id, then
attempts `restore_to_ply(resync_move_num - 1)`; replies `OK RS` on success
and `ERR05` on failure (`ERR03` when no session exists).  A failed restore
leaves the session unchanged, so the engine is returned as-is there. -/
def handleResyncRequest (r : Rules Move Board) (cfg : Config) (e : Engine Move Board)
    (msg : OTAMessage) : Engine Move Board × List Effect :=
  match e.game with
  | none => (e, sendErrorEffects cfg errNoSession)
  | some game =>
    if msg.timestamp ≠ some game.gameId then (e, sendErrorEffects cfg errDesync)
    else
      match msg.resync_move_num with
      | none => (e, [])  -- unreachable from parsed frames; Python would raise here
      | some n =>
        let target := n - 1
        let res := restore_to_ply r game target
        if res.2 then
          let response := fmt_resync_ok cfg.local_callsign cfg.remote_callsign game.gameId n
          ({ e with game := some res.1 },
            [Effect.uciOut (str "info string TX resync OK: " ++ response),
             Effect.send cfg.remote_callsign response])
        else (e, sendErrorEffects cfg errDesync)

/-- `_process_radio_item`: handle one dequeued OTA message; the third
component is its return value (the validated UCI move string, or `None`). -/
def processRadioItem (r : Rules Move Board) (cfg : Config) (e : Engine Move Board)
    (msg : OTAMessage) : Engine Move Board × List Effect × Option (List Char) :=
  match msg.msg_type with
  | .ack => (e, [], none)  -- ACK alone does not advance state
  | .move =>
    match e.game with
    | none => (e, sendErrorEffects cfg errNoSession, none)
    | some game =>
      if msg.move_num ≠ some (expected_move_num game) then
        (e, sendErrorEffects cfg errBadMoveNum, none)
      else
        match msg.move with
        | none => (e, [], none)  -- unreachable from parsed frames; Python would raise
        | some mv =>
          if validate_move r game mv then
            let game' := (apply_move r game mv).1
            ({ e with game := some game' },
              [Effect.uciOut (str "info string RX move: " ++
                natStr (expected_move_num game) ++ upperL mv)],
              some mv)
          else (e, sendErrorEffects cfg errIllegalMove, none)
  | .error =>
    (e, [Effect.uciOut (str "info string Remote sent error: " ++ msg.error_code.getD [])], none)
  | .resync_request =>
    let res := handleResyncRequest r cfg e msg
    (res.1, res.2, none)
  | .resync_ok => (e, [], none)
  | _ => (e, [], none)  -- log-only branch for unhandled message types

/-- `_retransmit_last_local_move`: rebuild and resend the frame for the ply
just before `expected_move_num`. -/
def retransmitLastLocalMove (r : Rules Move Board) (cfg : Config) (e : Engine Move Board) :
    List Effect :=
  match e.game with
  | none => []
  | some game =>
    let move_list := move_list_uci r game
    if move_list = [] then []
    else
      let last_local_ply := expected_move_num game - 1
      if last_local_ply < 1 ∨ last_local_ply > move_list.length then []
      else
        let last_move := move_list.getD (last_local_ply - 1) []
        let ota_text := fmt_move cfg.local_callsign cfg.remote_callsign last_local_ply last_move
        [Effect.uciOut (str "info string RETRY TX: " ++ ota_text),
         Effect.send cfg.remote_callsign ota_text]

/-- The events a blocking `radio_queue.get` can observe in
`_await_radio_move`: a timeout (`queue.Empty`), the stop flag found set, the
stop sentinel, or a dequeued OTA message. -/
inductive RadioEvent where
  | empty
  | stopFlag
  | sentinel
  | msg (m : OTAMessage)

/-- The wait loop of `_await_radio_move` on the `timeout=None` path (the
only one `_go_handler` uses): `wait` is the running per-cycle budget,
decremented by the 5-second poll on each `queue.Empty`; when it expires the
last local move is retransmitted while retries remain, else an error line
is printed and the wait returns `None`.  A dequeued message is passed to
`_process_radio_item` and its result is returned unconditionally
(engine.py line 305).  The outer `Option` of the result distinguishes a
still-blocked loop (`none`, the given events are exhausted) from a return
(`some r`, with `r` the Python return value). -/
def awaitLoop (r : Rules Move Board) (cfg : Config) (e : Engine Move Board) :
    Int → Nat → List RadioEvent →
    Engine Move Board × List Effect × Option (Option (List Char))
  | _, _, [] => (e, [], none)
  | _, _, .stopFlag :: _ => (e, [], some none)
  | _, _, .sentinel :: _ => (e, [], some none)
  | wait, retries_left, .empty :: rest =>
    let wait' := wait - 5
    if wait' ≤ 0 then
      match retries_left with
      | rl + 1 =>
        let effs := retransmitLastLocalMove r cfg e
        let res := awaitLoop r cfg e cfg.move_response_wait_seconds rl rest
        (res.1, effs ++ res.2.1, res.2.2)
      | 0 =>
        (e, [Effect.uciOut (str "info string ERROR: no response after max retries")], some none)
    else awaitLoop r cfg e wait' retries_left rest
  | _, _, .msg m :: _ =>
    let res := processRadioItem r cfg e m
    (res.1, res.2.1, some res.2.2)

/-- The tail of `_go_handler` after `_await_radio_move` returns:
`bestmove 0000` on `None`, else `bestmove` with the returned move. -/
def goFinish (remote_move : Option (List Char)) : List Effect :=
  match remote_move with
  | none => [Effect.uciOut (str "bestmove 0000")]
  | some mv => [Effect.uciOut (str "bestmove " ++ mv)]

/-- `_apply_and_transmit_local_move`: validate, apply, format with the
pre-apply `expected_move_num` as ordinal, print the TX info line and send
once (the retry loop in the source breaks after the first transmission). -/
def applyAndTransmitLocalMove (r : Rules Move Board) (cfg : Config)
    (game : GameSession Move Board) (uci_move : List Char) :
    GameSession Move Board × List Effect × Bool :=
  if validate_move r game uci_move then
    let move_num := expected_move_num game
    let res := apply_move r game uci_move
    if res.2 then
      let ota_text := fmt_move cfg.local_callsign cfg.remote_callsign move_num uci_move
      (res.1, [Effect.uciOut (str "info string TX: " ++ ota_text),
               Effect.send cfg.remote_callsign ota_text], true)
    else (res.1, [], false)
  else
    (game, [Effect.uciOut (str "info string ERROR: invalid local move " ++ uci_move)], false)

/-- `_handle_new_proposal`: ignore when a game is active; otherwise move to
AWAITING_PROPOSAL, then either log-and-revert (auto_accept off) or mint a
timestamp via `now_timestamp()` (the parameter `now`), transmit the
acceptance carrying the local color, create the session and activate the
game. -/
def handleNewProposal (r : Rules Move Board) (cfg : Config) (now : List Char)
    (e : Engine Move Board) (msg : OTAMessage) : Engine Move Board × List Effect :=
  if e.state = EngineState.game_active then (e, [])
  else
    let e1 : Engine Move Board := { e with state := EngineState.awaiting_proposal }
    if ¬cfg.auto_accept then
      ({ e1 with state := EngineState.no_game },
        [Effect.uciOut (str "info string Game proposal from " ++ msg.from_call ++
          str " ignored (auto_accept is false in config)")])
    else
      let timestamp := now
      let local_color : Bool := if msg.color = some (str "W") then false else true
      let local_color_str : List Char := if msg.color = some (str "W") then str "B" else str "W"
      let remote_color_str : List Char := (msg.color).getD []
      let acceptance := fmt_acceptance cfg.local_callsign cfg.remote_callsign timestamp
        local_color_str
      let session := GameSession.new r timestamp cfg.local_callsign cfg.remote_callsign
        local_color
      ({ e1 with game := some session, state := EngineState.game_active,
                 lastPositionMoves := [] },
        [Effect.uciOut (str "info string TX acceptance: " ++ acceptance),
         Effect.send cfg.remote_callsign acceptance,
         Effect.uciOut (str "info string Game started - ID: " ++ timestamp ++
           str ", local: " ++ local_color_str ++ str ", remote: " ++ remote_color_str)])

end JS8Chess

namespace JS8Chess

/-! ## Concrete instance for witnesses

A small stand-in instance of the out-of-scope chess library, used only to
instantiate the parametric theorems at concrete inputs.  Boards are the
list of moves played so far; exactly the next move of a fixed four-ply
opening line is legal. -/

/-- A fixed legal line: 1.e4 e5 2.d4 d5 (plain ply numbering). -/
def toyLine : List (List Char) := [str "e2e4", str "e7e5", str "d2d4", str "d7d5"]

/-- Stand-in chess library: a move string parses when it has UCI length,
and is legal exactly when it is the next move of `toyLine`. -/
def toyRules : Rules (List Char) (List (List Char)) :=
  ⟨[],
   fun b => b.length % 2 == 0,
   fun b m => decide (b.length < 4) && (toyLine.getD b.length [] == m),
   fun b m => b ++ [m],
   fun s => if s.length = 4 ∨ s.length = 5 then some s else none,
   fun m => m⟩

/-- The default configuration of config.py. -/
def toyCfg : Config :=
  ⟨str "CALLSIGN", str "SWL", str "127.0.0.1", 2442, 60, 120, 3, true⟩

/-- A fresh session: local plays White against SWL. -/
def toySession0 : GameSession (List Char) (List (List Char)) :=
  GameSession.new toyRules (str "202506011430") (str "CALLSIGN") (str "SWL") true

/-- The session after the local move e2e4 was applied. -/
def toySession1 : GameSession (List Char) (List (List Char)) :=
  (apply_move toyRules toySession0 (str "e2e4")).1

/-- Engine in GAME_ACTIVE with `toySession1`, awaiting the remote reply. -/
def toyEngine1 : Engine (List Char) (List (List Char)) :=
  ⟨EngineState.game_active, some toySession1, [str "e2e4"]⟩

/-- An inbound ACK frame as parsed from `CALLSIGN SWL JS8CHESS` traffic. -/
def toyAck : OTAMessage :=
  ⟨str "SWL", str "CALLSIGN", .ack, none, none, none, none, none, none⟩

/-- An inbound remote move with a wrong ordinal (99 instead of 2). -/
def toyBadNumMove : OTAMessage :=
  ⟨str "SWL", str "CALLSIGN", .move, none, none, some 99, some (str "e7e5"), none, none⟩

end JS8Chess


namespace JS8Chess

/-! ## Timeout-run observables -/

variable {Move Board : Type}

/-- Number of radio transmissions in an effect trace. -/
def sendCount (effs : List Effect) : Nat :=
  (effs.filter fun eff =>
    match eff with
    | Effect.send _ _ => true
    | _ => false).length

/-- The effect trace of a pure-timeout wait that exhausts `n` retries from
engine state `e`: `n` retransmissions of the last local move followed by the
max-retries error line. -/
def timeoutTrace (r : Rules Move Board) (cfg : Config) (e : Engine Move Board) :
    Nat → List Effect
  | 0 => [Effect.uciOut (str "info string ERROR: no response after max retries")]
  | k + 1 => retransmitLastLocalMove r cfg e ++ timeoutTrace r cfg e k

end JS8Chess

namespace JS8Chess

/-! ## Character and string lemmas -/

theorem char_le_toNat {a b : Char} : a ≤ b ↔ a.toNat ≤ b.toNat := Iff.rfl

theorem toNat_ofNat_of_valid {n : Nat} (h : Nat.isValidChar n) :
    (Char.ofNat n).toNat = n := by
  unfold Char.ofNat
  rw [dif_pos h]
  rfl

theorem upperChar_eq_self {c : Char} (h : ¬('a' ≤ c ∧ c ≤ 'z')) : upperChar c = c := by
  simp [upperChar, h]

theorem lowerChar_not_upper {c : Char} :
    ¬('A' ≤ lowerChar c ∧ lowerChar c ≤ 'Z') := by
  unfold lowerChar
  split
  · rename_i h
    have h1 : 65 ≤ c.toNat := h.1
    have h2 : c.toNat ≤ 90 := h.2
    have hval : Nat.isValidChar (c.toNat + 32) := Or.inl (by omega)
    rintro ⟨-, g2⟩
    have g2n : (Char.ofNat (c.toNat + 32)).toNat ≤ 90 := g2
    rw [toNat_ofNat_of_valid hval] at g2n
    omega
  · rename_i h
    exact h

theorem lowerChar_idem (c : Char) : lowerChar (lowerChar c) = lowerChar c := by
  conv_lhs => rw [lowerChar]
  rw [if_neg lowerChar_not_upper]

theorem lowerL_idem (l : List Char) : lowerL (lowerL l) = lowerL l := by
  simp [lowerL, Function.comp_def, lowerChar_idem]

/-- Characters admissible in an uppercase amateur callsign. -/
def IsCallsignChar (c : Char) : Prop :=
  ('A' ≤ c ∧ c ≤ 'Z') ∨ ('0' ≤ c ∧ c ≤ '9')

/-- A nonempty string of uppercase callsign characters. -/
def IsCallsignStr (l : List Char) : Prop :=
  l ≠ [] ∧ ∀ c ∈ l, IsCallsignChar c

theorem upperChar_callsign {c : Char} (h : IsCallsignChar c) : upperChar c = c := by
  apply upperChar_eq_self
  rintro ⟨h1, -⟩
  have h1n : 97 ≤ c.toNat := h1
  rcases h with ⟨-, h2⟩ | ⟨-, h2⟩
  · have h2n : c.toNat ≤ 90 := h2
    omega
  · have h2n : c.toNat ≤ 57 := h2
    omega

theorem upperChar_digit {c : Char} (h : isDigitChar c = true) : upperChar c = c := by
  have hb := of_decide_eq_true h
  apply upperChar_eq_self
  rintro ⟨h1, -⟩
  have h1n : 97 ≤ c.toNat := h1
  have h2n : c.toNat ≤ 57 := hb.2
  omega

theorem upperL_append (a b : List Char) : upperL (a ++ b) = upperL a ++ upperL b :=
  List.map_append _ a b

theorem upperL_callsign {l : List Char} (h : ∀ c ∈ l, IsCallsignChar c) :
    upperL l = l := by
  induction l with
  | nil => rfl
  | cons a t ih =>
    simp only [upperL, List.map_cons] at *
    rw [upperChar_callsign (h a (by simp)), ih fun c hc => h c (by simp [hc])]

theorem upperL_digits {l : List Char} (h : l.all isDigitChar = true) :
    upperL l = l := by
  induction l with
  | nil => rfl
  | cons a t ih =>
    simp only [List.all_cons, Bool.and_eq_true] at h
    simp only [upperL, List.map_cons] at *
    rw [upperChar_digit h.1, ih h.2]

theorem isSpaceChar_eq_false {c : Char} (h : '!' ≤ c) : isSpaceChar c = false := by
  have hn : 33 ≤ c.toNat := h
  simp only [isSpaceChar, decide_eq_false_iff_not]
  rintro (rfl | rfl | rfl | rfl | rfl | rfl) <;> exact absurd hn (by decide)

theorem callsign_char_ge {c : Char} (h : IsCallsignChar c) : '!' ≤ c := by
  show 33 ≤ c.toNat
  rcases h with ⟨h1, -⟩ | ⟨h1, -⟩
  · have : 65 ≤ c.toNat := h1
    omega
  · have : 48 ≤ c.toNat := h1
    omega

theorem digit_char_ge {c : Char} (h : isDigitChar c = true) : '!' ≤ c := by
  have hb := of_decide_eq_true h
  show 33 ≤ c.toNat
  have : 48 ≤ c.toNat := hb.1
  omega

theorem digit_char_ne_gt {c : Char} (h : isDigitChar c = true) : c ≠ '>' := by
  have hb := of_decide_eq_true h
  have h2 : c.toNat ≤ 57 := hb.2
  intro e
  subst e
  exact absurd h2 (by decide)

theorem digit_char_ne {c : Char} (h : isDigitChar c = true) (d : Char)
    (hd : d.toNat < 48 ∨ 57 < d.toNat) : c ≠ d := by
  have hb := of_decide_eq_true h
  have h1 : 48 ≤ c.toNat := hb.1
  have h2 : c.toNat ≤ 57 := hb.2
  intro e
  subst e
  omega

theorem dropWhile_eq_self {p : Char → Bool} {l : List Char}
    (h : ∀ c ∈ l.head?, p c = false) : l.dropWhile p = l := by
  cases l with
  | nil => rfl
  | cons a t => simp [List.dropWhile_cons, h a rfl]

theorem stripL_eq_self {l : List Char}
    (h1 : ∀ c ∈ l.head?, isSpaceChar c = false)
    (h2 : ∀ c ∈ l.getLast?, isSpaceChar c = false) : stripL l = l := by
  unfold stripL
  rw [dropWhile_eq_self h1, dropWhile_eq_self (by simpa [List.head?_reverse] using h2),
    List.reverse_reverse]

theorem startsWithL_append (p r : List Char) : startsWithL (p ++ r) p = true := by
  simp [startsWithL, List.take_left]

/-! ## Decimal rendering lemmas -/

theorem toDigitChar_isDigit {d : Nat} (h : d < 10) :
    isDigitChar (toDigitChar d) = true := by
  interval_cases d <;> decide

theorem charVal_toDigitChar {d : Nat} (h : d < 10) : charVal (toDigitChar d) = d := by
  interval_cases d <;> decide

theorem natStrGo_spec (fuel : Nat) :
    ∀ n, n < fuel →
      natStrGo fuel n ≠ [] ∧ (natStrGo fuel n).all isDigitChar = true ∧
      ∀ a : Nat, (natStrGo fuel n).foldl (fun a c => 10 * a + charVal c) a =
        a * 10 ^ (natStrGo fuel n).length + n := by
  induction fuel with
  | zero => intro n h; omega
  | succ f ih =>
    intro n h
    by_cases h10 : n < 10
    · rw [natStrGo, if_pos h10]
      refine ⟨by simp, by simp [toDigitChar_isDigit h10], fun a => ?_⟩
      simp [charVal_toDigitChar h10]
      ring
    · have hrec : n / 10 < f := by omega
      obtain ⟨hne, hdig, hfold⟩ := ih (n / 10) hrec
      rw [natStrGo, if_neg h10]
      refine ⟨by simp, ?_, fun a => ?_⟩
      · simp [List.all_append, hdig, toDigitChar_isDigit (Nat.mod_lt n (by omega))]
      · rw [List.foldl_append, hfold a]
        simp [charVal_toDigitChar (Nat.mod_lt n (by omega))]
        rw [pow_succ]
        have := Nat.div_add_mod n 10
        ring_nf
        omega

theorem natStr_ne_nil (n : Nat) : natStr n ≠ [] :=
  (natStrGo_spec (n + 1) n (by omega)).1

theorem natStr_all_digits (n : Nat) : (natStr n).all isDigitChar = true :=
  (natStrGo_spec (n + 1) n (by omega)).2.1

theorem digitsToNat_natStr (n : Nat) : digitsToNat (natStr n) = n := by
  have h := (natStrGo_spec (n + 1) n (by omega)).2.2 0
  simpa [digitsToNat, natStr] using h

end JS8Chess

namespace JS8Chess

/-! ## Parse lemmas for directed frames -/

theorem matchNew_eq_none_of_length {p : List Char} (h : p.length ≠ 5) : matchNew p = none := by
  rcases p with _ | ⟨a, _ | ⟨b, _ | ⟨c, _ | ⟨d, _ | ⟨e, _ | ⟨f, t⟩⟩⟩⟩⟩⟩ <;>
    first
      | rfl
      | simp at h

theorem matchAcceptance_spec (ts : List Char) (c : Char) (h12 : ts.length = 12)
    (hdig : ts.all isDigitChar = true) (hc : c = 'W' ∨ c = 'B') :
    matchAcceptance (ts ++ [' ', c]) = some (ts, c) := by
  unfold matchAcceptance
  rw [List.take_left' h12, List.drop_left' h12]
  simp [h12, hdig, hc]

theorem parsePayload_acceptance (rem loc ts : List Char) (c : Char)
    (h12 : ts.length = 12) (hdig : ts.all isDigitChar = true)
    (hc : c = 'W' ∨ c = 'B') :
    parsePayload rem loc (ts ++ [' ', c]) =
      ⟨rem, loc, .acceptance, some [c], some ts, none, none, none, none⟩ := by
  obtain ⟨t0, ts', rfl⟩ : ∃ t0 ts', ts = t0 :: ts' := by
    cases ts with
    | nil => simp at h12
    | cons a t => exact ⟨a, t, rfl⟩
  have ht0 : isDigitChar t0 = true := by
    simp [List.all_cons] at hdig
    exact hdig.1
  have hackneg : ¬((t0 :: ts') ++ [' ', c] = str ">" ∨ (t0 :: ts') ++ [' ', c] = []) := by
    rintro (he | he)
    · rw [show str ">" = ['>'] from rfl] at he
      simp at he
    · simp at he
  have hlen : ((t0 :: ts') ++ [' ', c]).length ≠ 5 := by
    simp only [List.length_cons, List.length_append, List.length_nil] at h12 ⊢
    omega
  unfold parsePayload
  rw [if_neg hackneg, matchNew_eq_none_of_length hlen,
    matchAcceptance_spec _ _ h12 hdig hc]

theorem take_append_of_le {a b : List Char} {n : Nat} (h : n ≤ a.length) :
    (a ++ b).take n = a.take n := by
  simp [List.take_append_eq_append_take, Nat.sub_eq_zero_of_le h]

theorem matchRsTail_spec (ts : List Char) (n : Nat) (h12 : ts.length = 12)
    (hdig : ts.all isDigitChar = true) :
    matchRsTail (ts ++ (str " MN=" ++ natStr n)) = some (ts, n) := by
  unfold matchRsTail
  rw [List.take_left' h12, List.drop_left' h12,
    List.take_left' (show (str " MN=").length = 4 from rfl),
    List.drop_left' (show (str " MN=").length = 4 from rfl)]
  simp [h12, hdig, natStr_ne_nil n, natStr_all_digits n, digitsToNat_natStr n]

theorem parsePayload_resync_ok (rem loc ts : List Char) (n : Nat)
    (h12 : ts.length = 12) (hdig : ts.all isDigitChar = true) :
    parsePayload rem loc (str "OK RS " ++ (ts ++ (str " MN=" ++ natStr n))) =
      ⟨rem, loc, .resync_ok, none, some ts, none, none, none, some n⟩ := by
  have hne := natStr_ne_nil n
  have hlen1 : 1 ≤ (natStr n).length := by
    cases h : natStr n with
    | nil => exact absurd h hne
    | cons a t => simp
  have hackneg : ¬(str "OK RS " ++ (ts ++ (str " MN=" ++ natStr n)) = str ">" ∨
      str "OK RS " ++ (ts ++ (str " MN=" ++ natStr n)) = []) := by
    rintro (he | he) <;> simp [str] at he
  have hlen : (str "OK RS " ++ (ts ++ (str " MN=" ++ natStr n))).length ≠ 5 := by
    simp only [List.length_append]
    omega
  have hts12 : ((str "OK RS " ++ (ts ++ (str " MN=" ++ natStr n))).take 12).all
      isDigitChar = false := by
    rw [List.take_append_eq_append_take,
      show (str "OK RS ").take 12 = str "OK RS " from rfl, List.all_append,
      show (str "OK RS ").all isDigitChar = false from rfl, Bool.false_and]
  have hacc : matchAcceptance (str "OK RS " ++ (ts ++ (str " MN=" ++ natStr n))) = none := by
    unfold matchAcceptance
    rw [if_neg (by rintro ⟨-, hall⟩; rw [hts12] at hall; exact absurd hall (by decide))]
  have herr : matchError (str "OK RS " ++ (ts ++ (str " MN=" ++ natStr n))) = none := by
    unfold matchError
    rw [take_append_of_le (by decide), if_neg (by decide)]
  have hrs : matchRS (str "OK RS " ++ (ts ++ (str " MN=" ++ natStr n))) = none := by
    unfold matchRS
    rw [take_append_of_le (by decide), if_neg (by decide)]
  have hok : matchOkRS (str "OK RS " ++ (ts ++ (str " MN=" ++ natStr n))) = some (ts, n) := by
    unfold matchOkRS
    rw [List.take_left' (show (str "OK RS ").length = 6 from rfl),
      List.drop_left' (show (str "OK RS ").length = 6 from rfl), if_pos rfl]
    exact matchRsTail_spec ts n h12 hdig
  unfold parsePayload
  rw [if_neg hackneg, matchNew_eq_none_of_length hlen, hacc, herr, hrs, hok]

theorem mem_of_getLast?_eq {l : List Char} {c : Char} (h : l.getLast? = some c) : c ∈ l := by
  induction l using List.reverseRecOn with
  | nil => simp at h
  | append_singleton xs x _ =>
    rw [List.getLast?_concat] at h
    cases h
    simp

theorem stripL_space_cons {X : List Char} (hh : ∀ c ∈ X.head?, isSpaceChar c = false)
    (hl : ∀ c ∈ X.getLast?, isSpaceChar c = false) : stripL (' ' :: X) = X := by
  unfold stripL
  rw [List.dropWhile_cons, if_pos (by decide : isSpaceChar ' ' = true),
    dropWhile_eq_self hh, dropWhile_eq_self (by simpa [List.head?_reverse] using hl),
    List.reverse_reverse]

theorem parse_message_directed (L R tail : List Char)
    (hL : IsCallsignStr L) (hR : IsCallsignStr R)
    (htailu : upperL tail = tail) (htne : tail ≠ [])
    (htlast : ∀ c ∈ tail.getLast?, isSpaceChar c = false) :
    parse_message ((L ++ str " " ++ R ++ str " JS8CHESS") ++ tail) R L [] =
      some (parsePayload L R (stripL tail)) := by
  have eL : upperL L = L := upperL_callsign hL.2
  have eR : upperL R = R := upperL_callsign hR.2
  have epfx : upperL (L ++ str " " ++ R ++ str " JS8CHESS") =
      L ++ str " " ++ R ++ str " JS8CHESS" := by
    rw [upperL_append, upperL_append, upperL_append, eL, eR,
      show upperL (str " ") = str " " from rfl,
      show upperL (str " JS8CHESS") = str " JS8CHESS" from rfl]
  have hstrip : stripL ((L ++ str " " ++ R ++ str " JS8CHESS") ++ tail) =
      (L ++ str " " ++ R ++ str " JS8CHESS") ++ tail := by
    apply stripL_eq_self
    · intro c hc
      cases L with
      | nil => exact absurd rfl hL.1
      | cons l0 L2 =>
        simp only [List.cons_append, List.head?_cons, Option.mem_def,
          Option.some.injEq] at hc
        subst hc
        exact isSpaceChar_eq_false (callsign_char_ge (hL.2 _ (by simp)))
    · intro c hc
      rw [List.getLast?_append_of_ne_nil _ htne] at hc
      exact htlast c hc
  have hupperAll : upperL ((L ++ str " " ++ R ++ str " JS8CHESS") ++ tail) =
      (L ++ str " " ++ R ++ str " JS8CHESS") ++ tail := by
    rw [upperL_append, epfx, htailu]
  simp only [parse_message, hstrip, hupperAll, eL, eR]
  rw [startsWithL_append]
  simp only [if_true, ne_eq, not_true_eq_false, false_and, if_false,
    List.drop_left]

theorem upperL_of_parts {ts : List Char} (hdig : ts.all isDigitChar = true)
    {Y : List Char} (hY : upperL Y = Y) : upperL (ts ++ Y) = ts ++ Y := by
  rw [upperL_append, upperL_digits hdig, hY]

/-- Claim C2 (amended): an acceptance or resync-ok frame built by
fmt_acceptance or fmt_resync_ok over callsigns L and R is parsed as directed
to us by the receiving station, whose roles are swapped: with local_call = R
and remote_call = L the frame begins with remote-then-local and
parse_message yields the Acceptance (timestamp, color) respectively ResyncOk
(timestamp, ordinal) message; with local_call = L and remote_call = R, as
the claim literally states it, parse_message returns none (see the
counterexample). -/
theorem c2_peer_view_roundtrip (L R ts : List Char) (c : Char) (n : Nat)
    (hL : IsCallsignStr L) (hR : IsCallsignStr R) (hLR : L ≠ R)
    (h12 : ts.length = 12) (hdig : ts.all isDigitChar = true)
    (hc : c = 'W' ∨ c = 'B') :
    parse_message (fmt_acceptance L R ts [c]) R L [] =
      some ⟨L, R, .acceptance, some [c], some ts, none, none, none, none⟩ ∧
    parse_message (fmt_resync_ok L R ts n) R L [] =
      some ⟨L, R, .resync_ok, none, some ts, none, none, none, some n⟩ := by
  obtain ⟨t0, ts', hts⟩ : ∃ t0 ts', ts = t0 :: ts' := by
    cases ts with
    | nil => simp at h12
    | cons a t => exact ⟨a, t, rfl⟩
  have ht0 : isDigitChar t0 = true := by
    rw [hts] at hdig
    simp [List.all_cons] at hdig
    exact hdig.1
  have hcup : upperChar c = c := by rcases hc with rfl | rfl <;> rfl
  have hcsp : isSpaceChar c = false := by rcases hc with rfl | rfl <;> decide
  constructor
  · -- acceptance round trip seen from the receiving side
    have hshape : fmt_acceptance L R ts [c] =
        (L ++ str " " ++ R ++ str " JS8CHESS") ++ (' ' :: (ts ++ [' ', c])) := by
      simp only [fmt_acceptance, List.append_assoc]
      rw [show upperL [c] = [c] by simp [upperL, hcup]]
      rfl
    rw [hshape, parse_message_directed L R _ hL hR]
    · rw [show stripL (' ' :: (ts ++ [' ', c])) = ts ++ [' ', c] from ?_,
        parsePayload_acceptance L R ts c h12 hdig hc]
      apply stripL_space_cons
      · intro d hd
        rw [hts] at hd
        simp only [List.cons_append, List.head?_cons, Option.mem_def,
          Option.some.injEq] at hd
        subst hd
        exact isSpaceChar_eq_false (digit_char_ge ht0)
      · intro d hd
        rw [List.getLast?_append_of_ne_nil _ (by simp)] at hd
        simp only [List.getLast?, Option.mem_def, Option.some.injEq] at hd
        subst hd
        exact hcsp
    · -- the tail is fixed by upper-casing
      rw [show (' ' :: (ts ++ [' ', c])) = str " " ++ (ts ++ [' ', c]) from rfl,
        upperL_append, show upperL (str " ") = str " " from rfl,
        upperL_append, upperL_digits hdig,
        show upperL [' ', c] = [' ', c] by simp [upperL, hcup]; decide]
    · simp
    · intro d hd
      rw [show (' ' :: (ts ++ [' ', c])) = (' ' :: ts) ++ [' ', c] from by simp] at hd
      rw [List.getLast?_append_of_ne_nil _ (by simp)] at hd
      simp only [List.getLast?, Option.mem_def, Option.some.injEq] at hd
      subst hd
      exact hcsp
  · -- resync-ok round trip seen from the receiving side
    have hshape : fmt_resync_ok L R ts n =
        (L ++ str " " ++ R ++ str " JS8CHESS") ++
          (' ' :: (str "OK RS " ++ (ts ++ (str " MN=" ++ natStr n)))) := by
      simp only [fmt_resync_ok, List.append_assoc]
      rfl
    have hXlast : ∀ d ∈ (str "OK RS " ++ (ts ++ (str " MN=" ++ natStr n))).getLast?,
        isSpaceChar d = false := by
      intro d hd
      rw [List.getLast?_append_of_ne_nil _ (by simp [natStr_ne_nil n]),
        List.getLast?_append_of_ne_nil _ (by simp [natStr_ne_nil n]),
        List.getLast?_append_of_ne_nil _ (natStr_ne_nil n)] at hd
      have hdd : isDigitChar d = true :=
        List.all_eq_true.mp (natStr_all_digits n) d (mem_of_getLast?_eq hd)
      exact isSpaceChar_eq_false (digit_char_ge hdd)
    rw [hshape, parse_message_directed L R _ hL hR]
    · rw [show stripL (' ' :: (str "OK RS " ++ (ts ++ (str " MN=" ++ natStr n)))) =
          str "OK RS " ++ (ts ++ (str " MN=" ++ natStr n)) from ?_,
        parsePayload_resync_ok L R ts n h12 hdig]
      apply stripL_space_cons
      · intro d hd
        simp only [show str "OK RS " = 'O' :: str "K RS " from rfl, List.cons_append,
          List.head?_cons, Option.mem_def, Option.some.injEq] at hd
        subst hd
        decide
      · exact hXlast
    · rw [show (' ' :: (str "OK RS " ++ (ts ++ (str " MN=" ++ natStr n)))) =
          str " OK RS " ++ (ts ++ (str " MN=" ++ natStr n)) from rfl,
        upperL_append, show upperL (str " OK RS ") = str " OK RS " from rfl,
        upperL_append, upperL_digits hdig, upperL_append,
        show upperL (str " MN=") = str " MN=" from rfl,
        upperL_digits (natStr_all_digits n)]
    · simp
    · intro d hd
      rw [show (' ' :: (str "OK RS " ++ (ts ++ (str " MN=" ++ natStr n)))) =
          [' '] ++ (str "OK RS " ++ (ts ++ (str " MN=" ++ natStr n))) from rfl,
        List.getLast?_append_of_ne_nil _
          (List.append_ne_nil_of_left_ne_nil (by decide) _)] at hd
      exact hXlast d hd

end JS8Chess


namespace JS8Chess

/-! ## Claim theorems -/

variable {Move Board : Type}

theorem sendCount_append (a b : List Effect) :
    sendCount (a ++ b) = sendCount a + sendCount b := by
  simp [sendCount, List.filter_append]

theorem sendCount_retransmit_le_one (r : Rules Move Board) (cfg : Config)
    (e : Engine Move Board) : sendCount (retransmitLastLocalMove r cfg e) ≤ 1 := by
  unfold retransmitLastLocalMove
  split
  · simp [sendCount]
  · dsimp only
    split
    · simp [sendCount]
    · split
      · simp [sendCount]
      · simp [sendCount, List.filter]

theorem awaitLoop_sendCount_le (r : Rules Move Board) (cfg : Config)
    (e : Engine Move Board) :
    ∀ (k : Nat) (w : Int) (retries : Nat),
      sendCount (awaitLoop r cfg e w retries (List.replicate k RadioEvent.empty)).2.1 ≤
        retries := by
  intro k
  induction k with
  | zero => intro w retries; simp [awaitLoop, sendCount]
  | succ k ih =>
    intro w retries
    rw [show List.replicate (k + 1) RadioEvent.empty =
      RadioEvent.empty :: List.replicate k RadioEvent.empty from rfl]
    simp only [awaitLoop]
    by_cases hw : w - 5 ≤ 0
    · rw [if_pos hw]
      cases retries with
      | zero => simp [sendCount]
      | succ rl =>
        simp only []
        rw [sendCount_append]
        have h1 := sendCount_retransmit_le_one r cfg e
        have h2 := ih cfg.move_response_wait_seconds rl
        omega
    · rw [if_neg hw]
      exact ih (w - 5) retries

theorem awaitLoop_timeout_run (r : Rules Move Board) (cfg : Config)
    (e : Engine Move Board) :
    ∀ (retries : Nat) (w : Int), ∃ k,
      awaitLoop r cfg e w retries (List.replicate k RadioEvent.empty) =
        (e, timeoutTrace r cfg e retries, some none) := by
  intro retries
  induction retries with
  | zero =>
    have hstep : ∀ (fuel : Nat) (w : Int), w ≤ 5 * fuel + 5 →
        awaitLoop r cfg e w 0 (List.replicate (fuel + 1) RadioEvent.empty) =
          (e, timeoutTrace r cfg e 0, some none) := by
      intro fuel
      induction fuel with
      | zero =>
        intro w hw
        rw [show List.replicate (0 + 1) RadioEvent.empty = [RadioEvent.empty] from rfl]
        simp only [awaitLoop]
        rw [if_pos (by omega : w - 5 ≤ 0)]
        rfl
      | succ f ih =>
        intro w hw
        rw [show List.replicate (f + 1 + 1) RadioEvent.empty =
          RadioEvent.empty :: List.replicate (f + 1) RadioEvent.empty from rfl]
        simp only [awaitLoop]
        by_cases hw5 : w - 5 ≤ 0
        · rw [if_pos hw5]
          rfl
        · rw [if_neg hw5]
          exact ih (w - 5) (by omega)
    intro w
    exact ⟨w.toNat + 1, hstep w.toNat w (by omega)⟩
  | succ rl ih =>
    have hstep : ∀ (fuel : Nat) (w : Int), w ≤ 5 * fuel + 5 → ∃ k,
        awaitLoop r cfg e w (rl + 1) (List.replicate k RadioEvent.empty) =
          (e, timeoutTrace r cfg e (rl + 1), some none) := by
      intro fuel
      induction fuel with
      | zero =>
        intro w hw
        obtain ⟨k', hk'⟩ := ih cfg.move_response_wait_seconds
        refine ⟨k' + 1, ?_⟩
        rw [show List.replicate (k' + 1) RadioEvent.empty =
          RadioEvent.empty :: List.replicate k' RadioEvent.empty from rfl]
        simp only [awaitLoop]
        rw [if_pos (by omega : w - 5 ≤ 0)]
        simp only [hk', timeoutTrace]
      | succ f ih2 =>
        intro w hw
        by_cases hw5 : w - 5 ≤ 0
        · obtain ⟨k', hk'⟩ := ih cfg.move_response_wait_seconds
          refine ⟨k' + 1, ?_⟩
          rw [show List.replicate (k' + 1) RadioEvent.empty =
            RadioEvent.empty :: List.replicate k' RadioEvent.empty from rfl]
          simp only [awaitLoop]
          rw [if_pos hw5]
          simp only [hk', timeoutTrace]
        · obtain ⟨k', hk'⟩ := ih2 (w - 5) (by omega)
          refine ⟨k' + 1, ?_⟩
          rw [show List.replicate (k' + 1) RadioEvent.empty =
            RadioEvent.empty :: List.replicate k' RadioEvent.empty from rfl]
          simp only [awaitLoop]
          rw [if_neg hw5]
          exact hk'
    intro w
    exact hstep w.toNat w (by omega)

theorem getD_append_length (l : List (List Char)) (a d : List Char) :
    (l ++ [a]).getD l.length d = a := by
  induction l with
  | nil => rfl
  | cons x t ih => simpa using ih

/-- Claim C9: after a local move was applied and transmitted, every timeout
cycle with retries remaining retransmits a frame identical to the original
transmission (same ordinal, same coordinates, same text), at most max_retries
times over any pure-timeout run; a long enough run exhausts exactly
max_retries retransmissions, emits the max-retries error line, and the
worker then emits bestmove 0000. -/
theorem c9_timeout_retransmission (r : Rules Move Board) (cfg : Config) (g : GameSession Move Board)
    (uci : List Char) (m : Move) (lpm : List (List Char))
    (hfrom : r.fromUci uci = some m) (hleg : r.legal g.board m = true)
    (hround : r.uciOf m = uci) :
    applyAndTransmitLocalMove r cfg g uci =
      ((apply_move r g uci).1,
       [Effect.uciOut (str "info string TX: " ++
          fmt_move cfg.local_callsign cfg.remote_callsign (expected_move_num g) uci),
        Effect.send cfg.remote_callsign
          (fmt_move cfg.local_callsign cfg.remote_callsign (expected_move_num g) uci)],
       true) ∧
    retransmitLastLocalMove r cfg
        ⟨EngineState.game_active, some (apply_move r g uci).1, lpm⟩ =
      [Effect.uciOut (str "info string RETRY TX: " ++
         fmt_move cfg.local_callsign cfg.remote_callsign (expected_move_num g) uci),
       Effect.send cfg.remote_callsign
         (fmt_move cfg.local_callsign cfg.remote_callsign (expected_move_num g) uci)] ∧
    (∀ k, sendCount (awaitLoop r cfg
        ⟨EngineState.game_active, some (apply_move r g uci).1, lpm⟩
        cfg.move_response_wait_seconds cfg.max_retries
        (List.replicate k RadioEvent.empty)).2.1 ≤ cfg.max_retries) ∧
    (∃ k, awaitLoop r cfg
        ⟨EngineState.game_active, some (apply_move r g uci).1, lpm⟩
        cfg.move_response_wait_seconds cfg.max_retries
        (List.replicate k RadioEvent.empty) =
      (⟨EngineState.game_active, some (apply_move r g uci).1, lpm⟩,
       timeoutTrace r cfg ⟨EngineState.game_active, some (apply_move r g uci).1, lpm⟩
         cfg.max_retries,
       some none)) ∧
    goFinish none = [Effect.uciOut (str "bestmove 0000")] := by
  have happly : apply_move r g uci =
      ({ g with board := r.push g.board m,
                moveStack := g.moveStack ++ [m],
                pgnMain := if g.pgnNode = g.pgnMain.length then g.pgnMain ++ [m] else g.pgnMain,
                pgnNode := if g.pgnNode = g.pgnMain.length then g.pgnNode + 1 else g.pgnNode,
                disk := some (some (if g.pgnNode = g.pgnMain.length then g.pgnMain ++ [m]
                  else g.pgnMain)) }, true) := by
    simp only [apply_move, hfrom, hleg, if_true]
  have hval : validate_move r g uci = true := by
    simp [validate_move, hfrom, hleg]
  refine ⟨?_, ?_, fun k => awaitLoop_sendCount_le r cfg _ k _ _,
    awaitLoop_timeout_run r cfg _ _ _, rfl⟩
  · unfold applyAndTransmitLocalMove
    rw [if_pos hval, happly]
    rfl
  · unfold retransmitLastLocalMove
    simp only [happly]
    rw [show move_list_uci r
        ({ g with board := r.push g.board m,
                  moveStack := g.moveStack ++ [m],
                  pgnMain := if g.pgnNode = g.pgnMain.length then g.pgnMain ++ [m] else g.pgnMain,
                  pgnNode := if g.pgnNode = g.pgnMain.length then g.pgnNode + 1 else g.pgnNode,
                  disk := some (some (if g.pgnNode = g.pgnMain.length then g.pgnMain ++ [m]
                    else g.pgnMain)) } : GameSession Move Board) =
      g.moveStack.map r.uciOf ++ [uci] from by
        simp [move_list_uci, hround]]
    rw [if_neg (by simp)]
    have hexp : expected_move_num
        ({ g with board := r.push g.board m,
                  moveStack := g.moveStack ++ [m],
                  pgnMain := if g.pgnNode = g.pgnMain.length then g.pgnMain ++ [m] else g.pgnMain,
                  pgnNode := if g.pgnNode = g.pgnMain.length then g.pgnNode + 1 else g.pgnNode,
                  disk := some (some (if g.pgnNode = g.pgnMain.length then g.pgnMain ++ [m]
                    else g.pgnMain)) } : GameSession Move Board) =
        g.moveStack.length + 2 := by
      simp [expected_move_num]
    rw [hexp]
    rw [if_neg (by simp)]
    rw [show g.moveStack.length + 2 - 1 - 1 = (g.moveStack.map r.uciOf).length from by simp]
    rw [getD_append_length]
    have : g.moveStack.length + 2 - 1 = expected_move_num g := by
      simp [expected_move_num]
    rw [this]

end JS8Chess

namespace JS8Chess

/-! ## Session and controller claim theorems -/

variable {Move Board : Type}

instance (c : Char) : Decidable (IsCallsignChar c) := by
  unfold IsCallsignChar
  infer_instance

/-- Claim C6: apply_move returns false exactly when the move string does not
parse as coordinate notation or is illegal in the current position, and a
failed apply_move mutates no session state (board, move stack, notation
document and its file are exactly as before). -/
theorem c6_apply_move_failure (r : Rules Move Board) (s : GameSession Move Board)
    (uci : List Char) :
    ((apply_move r s uci).2 = false ↔
      r.fromUci uci = none ∨ ∃ m, r.fromUci uci = some m ∧ r.legal s.board m = false) ∧
    ((apply_move r s uci).2 = false → (apply_move r s uci).1 = s) := by
  unfold apply_move
  cases h : r.fromUci uci with
  | none => simp
  | some m =>
    by_cases hl : r.legal s.board m
    · simp [hl]
    · simp [hl, Bool.eq_false_iff.mpr hl]

/-- Claim C5: in every reachable session state expected_move_num equals the
move stack length plus one, and every successful apply_move call increases
expected_move_num by exactly one. -/
theorem c5_expected_move_num_invariant (r : Rules Move Board) :
    (∀ s : GameSession Move Board, ReachableSession r s →
      expected_move_num s = s.moveStack.length + 1) ∧
    (∀ (s s' : GameSession Move Board) (uci : List Char),
      apply_move r s uci = (s', true) → expected_move_num s' = expected_move_num s + 1) := by
  constructor
  · intro s _
    rfl
  · intro s s' uci h
    cases hu : r.fromUci uci with
    | none => simp [apply_move, hu] at h
    | some m =>
      by_cases hl : r.legal s.board m = true
      · simp only [apply_move, hu, hl, if_true] at h
        have h1 : _ = s' := (Prod.ext_iff.mp h).1
        rw [← h1]
        simp [expected_move_num]
      · simp [apply_move, hu, hl] at h

/-- Claim C3 (amended): restore_to_ply(n) reloads the notation file and
replays min(n, plies recorded in the file) plies onto a fresh board, adopting
that board, document and node as current and reporting success; when the file
is missing or cannot be parsed it returns failure and leaves every part of
the session state unchanged. -/
theorem c3_restore_partial_replay (r : Rules Move Board) (s : GameSession Move Board)
    (n : Nat) :
    (∀ ms, s.disk = some (some ms) →
      restore_to_ply r s n =
        ({ s with board := (ms.take n).foldl r.push r.init,
                  moveStack := ms.take n,
                  pgnMain := ms,
                  pgnNode := (ms.take n).length }, true) ∧
      ((restore_to_ply r s n).1.moveStack.length = min n ms.length)) ∧
    ((s.disk = none ∨ s.disk = some none) → restore_to_ply r s n = (s, false)) := by
  constructor
  · intro ms hd
    unfold restore_to_ply
    rw [hd]
    exact ⟨rfl, by simp [hd, List.length_take]⟩
  · rintro (hd | hd) <;> (unfold restore_to_ply; rw [hd])

theorem parsePayload_move_lower (rem loc p : List Char) (m : OTAMessage)
    (hp : parsePayload rem loc p = m) (h : m.msg_type = MsgType.move) :
    ∃ mv, m.move = some mv ∧ lowerL mv = mv := by
  unfold parsePayload at hp
  split at hp
  · rw [← hp] at h; simp at h
  · split at hp
    · rw [← hp] at h; simp at h
    · split at hp
      · rw [← hp] at h; simp at h
      · split at hp
        · rw [← hp] at h; simp at h
        · split at hp
          · rw [← hp] at h; simp at h
          · split at hp
            · rw [← hp] at h; simp at h
            · split at hp
              · rename_i nm mv heq
                rw [← hp]
                exact ⟨lowerL mv, rfl, lowerL_idem mv⟩
              · rw [← hp] at h; simp at h

theorem parse_message_move_lower (raw lc rc fc : List Char) (m : OTAMessage)
    (h : parse_message raw lc rc fc = some m) (hm : m.msg_type = MsgType.move) :
    ∃ mv, m.move = some mv ∧ lowerL mv = mv := by
  simp only [parse_message] at h
  split at h
  · exact absurd h (by simp)
  · split at h
    · exact absurd h (by simp)
    · rename_i htext
      exact parsePayload_move_lower _ _ _ m (Option.some.injEq .. ▸ h) hm

/-- Claim C10: an inbound NewProposal received while the engine state is
GameActive is ignored entirely: engine state, game session and position
cache are unchanged and nothing is transmitted. -/
theorem c10_proposal_ignored_when_game_active (r : Rules Move Board) (cfg : Config)
    (now : List Char) (e : Engine Move Board) (msg : OTAMessage)
    (h : e.state = EngineState.game_active) :
    handleNewProposal r cfg now e msg = (e, []) := by
  unfold handleNewProposal
  rw [if_pos h]

/-- Claim C7: with auto-accept enabled and no game active, an inbound
NewProposal proposing color c moves the engine to GameActive with a fresh
session whose local color is the opposite of c, and transmits an Acceptance
frame carrying the local color and the freshly minted 12-digit timestamp
that becomes the session game id. -/
theorem c7_auto_accept_proposal (r : Rules Move Board) (cfg : Config) (now : List Char)
    (e : Engine Move Board) (msg : OTAMessage) (c : Char)
    (hstate : e.state = EngineState.no_game) (hauto : cfg.auto_accept = true)
    (hcol : msg.color = some [c]) (hc : c = 'W' ∨ c = 'B')
    (hnow : now.length = 12 ∧ now.all isDigitChar = true) :
    (handleNewProposal r cfg now e msg).1.state = EngineState.game_active ∧
    (∃ g, (handleNewProposal r cfg now e msg).1.game = some g ∧
      g.localColor = (if c = 'W' then false else true) ∧
      g.gameId = now ∧ g.gameId.length = 12 ∧
      g.localCallsign = upperL cfg.local_callsign ∧
      g.remoteCallsign = upperL cfg.remote_callsign ∧
      g.board = r.init ∧ g.moveStack = []) ∧
    (handleNewProposal r cfg now e msg).1.lastPositionMoves = [] ∧
    Effect.send cfg.remote_callsign
        (fmt_acceptance cfg.local_callsign cfg.remote_callsign now
          (if c = 'W' then str "B" else str "W")) ∈
      (handleNewProposal r cfg now e msg).2 := by
  have hne : e.state ≠ EngineState.game_active := by rw [hstate]; decide
  unfold handleNewProposal
  rw [if_neg hne, if_neg (by rw [hauto]; simp)]
  rcases hc with rfl | rfl
  · simp [hcol, GameSession.new, hnow.1, show str "W" = ['W'] from rfl]
  · have hne2 : msg.color ≠ some (str "W") := by rw [hcol]; decide
    simp [hne2, GameSession.new, hnow.1, hcol, show str "W" = ['W'] from rfl,
      show str "B" = ['B'] from rfl]

/-- Claim C8: a ResyncRequest arriving while a session is active is answered
with ERR05 when its timestamp differs from the game id; otherwise
restore_to_ply(n-1) is attempted, answered with OK RS id MN=n on success and
ERR05 on failure. -/
theorem c8_resync_request_handling (r : Rules Move Board) (cfg : Config)
    (e : Engine Move Board) (msg : OTAMessage) (g : GameSession Move Board) (n : Nat)
    (hg : e.game = some g) (hn : msg.resync_move_num = some n) :
    (msg.timestamp ≠ some g.gameId →
      handleResyncRequest r cfg e msg = (e, sendErrorEffects cfg errDesync)) ∧
    (msg.timestamp = some g.gameId →
      ((restore_to_ply r g (n - 1)).2 = true →
        handleResyncRequest r cfg e msg =
          ({ e with game := some (restore_to_ply r g (n - 1)).1 },
           [Effect.uciOut (str "info string TX resync OK: " ++
              fmt_resync_ok cfg.local_callsign cfg.remote_callsign g.gameId n),
            Effect.send cfg.remote_callsign
              (fmt_resync_ok cfg.local_callsign cfg.remote_callsign g.gameId n)])) ∧
      ((restore_to_ply r g (n - 1)).2 = false →
        handleResyncRequest r cfg e msg = (e, sendErrorEffects cfg errDesync))) := by
  refine ⟨fun hts => ?_, fun hts => ⟨fun hres => ?_, fun hres => ?_⟩⟩
  · simp only [handleResyncRequest, hg]
    rw [if_pos hts]
  · simp only [handleResyncRequest, hg, hn]
    rw [if_neg (by simp [hts]), if_pos hres]
  · simp only [handleResyncRequest, hg, hn]
    rw [if_neg (by simp [hts]), if_neg (by simp [hres])]

/-- Claim C4: an inbound Move processed during the wait draws ERR03 when no
session exists, ERR02 on an ordinal mismatch, ERR01 on an illegal move - in
each case leaving the engine (board and move stack included) unchanged - and
when ordinal and legality both check out the move is applied and the worker
emits bestmove with the (lowercase, as produced by the parser) move. -/
theorem c4_inbound_move_validation (r : Rules Move Board) (cfg : Config)
    (e : Engine Move Board) (msg : OTAMessage) (hty : msg.msg_type = MsgType.move) :
    (e.game = none →
      processRadioItem r cfg e msg = (e, sendErrorEffects cfg errNoSession, none)) ∧
    (∀ g, e.game = some g → msg.move_num ≠ some (expected_move_num g) →
      processRadioItem r cfg e msg = (e, sendErrorEffects cfg errBadMoveNum, none)) ∧
    (∀ g mv, e.game = some g → msg.move_num = some (expected_move_num g) →
      msg.move = some mv → validate_move r g mv = false →
      processRadioItem r cfg e msg = (e, sendErrorEffects cfg errIllegalMove, none)) ∧
    (∀ g mv, e.game = some g → msg.move_num = some (expected_move_num g) →
      msg.move = some mv → validate_move r g mv = true →
      processRadioItem r cfg e msg =
        ({ e with game := some (apply_move r g mv).1 },
         [Effect.uciOut (str "info string RX move: " ++
            natStr (expected_move_num g) ++ upperL mv)],
         some mv) ∧
      goFinish (some mv) = [Effect.uciOut (str "bestmove " ++ mv)]) ∧
    (∀ raw lc rc fc m, parse_message raw lc rc fc = some m →
      m.msg_type = MsgType.move → ∃ mv, m.move = some mv ∧ lowerL mv = mv) := by
  refine ⟨fun hg => ?_, fun g hg hn => ?_, fun g mv hg hn hmv hval => ?_,
    fun g mv hg hn hmv hval => ⟨?_, rfl⟩, fun raw lc rc fc m h hm =>
      parse_message_move_lower raw lc rc fc m h hm⟩
  · simp only [processRadioItem, hty, hg]
  · simp only [processRadioItem, hty, hg]
    rw [if_pos hn]
  · simp only [processRadioItem, hty, hg, hmv]
    rw [if_neg (by simp [hn]), if_neg (by simp [hval])]
  · simp only [processRadioItem, hty, hg, hmv]
    rw [if_neg (by simp [hn]), if_pos hval]

end JS8Chess


namespace JS8Chess

/-! ## Closed theorems: counterexamples, the C1 evaluation, and witnesses -/

/-- An inbound ERR01 report from the remote. -/
def toyErrMsg : OTAMessage :=
  ⟨str "SWL", str "CALLSIGN", .error, none, none, none, none, some (str "ERR01"), none⟩

/-- An inbound ResyncOk frame. -/
def toyResyncOkMsg : OTAMessage :=
  ⟨str "SWL", str "CALLSIGN", .resync_ok, none, some (str "202506011430"), none, none, none,
    some 2⟩

/-- Claim C1: evaluation of the wait loop at the failing inputs.  With no
inbound event the wait continues (outcome none), but dequeuing an Ack, an
Error report, a ResyncOk, or a Move that draws ERR02 makes _await_radio_move
return the result of _process_radio_item unconditionally - the wait ENDS
with a None return and the worker emits bestmove 0000, contradicting the
claim (and the keep-waiting comments in the source) that the worker
continues waiting in these cases. -/
theorem c1_nonterminal_frames_end_the_wait :
    awaitLoop toyRules toyCfg toyEngine1 120 3 [] = (toyEngine1, [], none) ∧
    awaitLoop toyRules toyCfg toyEngine1 120 3 [RadioEvent.msg toyAck] =
      (toyEngine1, [], some none) ∧
    awaitLoop toyRules toyCfg toyEngine1 120 3 [RadioEvent.msg toyErrMsg] =
      (toyEngine1,
       [Effect.uciOut (str "info string Remote sent error: " ++ str "ERR01")],
       some none) ∧
    awaitLoop toyRules toyCfg toyEngine1 120 3 [RadioEvent.msg toyResyncOkMsg] =
      (toyEngine1, [], some none) ∧
    awaitLoop toyRules toyCfg toyEngine1 120 3 [RadioEvent.msg toyBadNumMove] =
      (toyEngine1, sendErrorEffects toyCfg errBadMoveNum, some none) ∧
    goFinish none = [Effect.uciOut (str "bestmove 0000")] := by
  refine ⟨rfl, rfl, by decide, rfl, by decide, rfl⟩

/-- Claim C2, counterexample: parsing the formatted acceptance and resync-ok
frames with local_call = L and remote_call = R, exactly as the claim states
it, yields none - the parser only accepts the remote-then-local prefix. -/
theorem c2_counterexample :
    parse_message (fmt_acceptance (str "CALLSIGN") (str "SWL") (str "202506011430") (str "W"))
      (str "CALLSIGN") (str "SWL") [] = none ∧
    parse_message (fmt_resync_ok (str "CALLSIGN") (str "SWL") (str "202506011430") 17)
      (str "CALLSIGN") (str "SWL") [] = none := by
  constructor <;> decide

/-- Claim C2, witness: the amended statement evaluated at concrete
callsigns, timestamp, color and ordinal. -/
theorem c2_witness :
    parse_message (fmt_acceptance (str "CALLSIGN") (str "SWL") (str "202506011430") ['W'])
      (str "SWL") (str "CALLSIGN") [] =
      some ⟨str "CALLSIGN", str "SWL", .acceptance, some ['W'],
        some (str "202506011430"), none, none, none, none⟩ ∧
    parse_message (fmt_resync_ok (str "CALLSIGN") (str "SWL") (str "202506011430") 17)
      (str "SWL") (str "CALLSIGN") [] =
      some ⟨str "CALLSIGN", str "SWL", .resync_ok, none,
        some (str "202506011430"), none, none, none, some 17⟩ :=
  c2_peer_view_roundtrip (str "CALLSIGN") (str "SWL") (str "202506011430") 'W' 17
    ⟨by decide, by decide⟩ ⟨by decide, by decide⟩ (by decide)
    (by decide) (by decide) (Or.inl rfl)

/-- Claim C3, counterexample: after a single applied ply the notation file
records one ply; restore_to_ply 5 still reports success and leaves a move
stack of length 1, not 5 - the claim that exactly n plies are replayed (and
the stack has length n afterwards) fails whenever n exceeds the recorded
plies. -/
theorem c3_counterexample :
    (apply_move toyRules toySession0 (str "e2e4")).2 = true ∧
    (restore_to_ply toyRules toySession1 5).2 = true ∧
    (restore_to_ply toyRules toySession1 5).1.moveStack.length = 1 ∧
    (restore_to_ply toyRules toySession1 5).1.moveStack.length ≠ 5 := by
  refine ⟨by decide, by decide, by decide, by decide⟩

/-- Claim C3, witness: the amended statement evaluated on the concrete
session with a one-ply notation file and target 5. -/
theorem c3_witness :
    (restore_to_ply toyRules toySession1 5).1.moveStack.length = min 5 1 :=
  ((c3_restore_partial_replay toyRules toySession1 5).1 [str "e2e4"] (by decide)).2

/-- Claim C4, witness: the ERR01 branch evaluated concretely - an inbound
move with the right ordinal but an illegal move draws ERR01 and leaves the
engine unchanged. -/
theorem c4_witness :
    processRadioItem toyRules toyCfg toyEngine1
      ⟨str "SWL", str "CALLSIGN", .move, none, none, some 2, some (str "a7a6"), none, none⟩ =
      (toyEngine1, sendErrorEffects toyCfg errIllegalMove, none) :=
  (c4_inbound_move_validation toyRules toyCfg toyEngine1
    ⟨str "SWL", str "CALLSIGN", .move, none, none, some 2, some (str "a7a6"), none, none⟩
    rfl).2.2.1 toySession1 (str "a7a6") rfl (by decide) rfl (by decide)

/-- Claim C5, witness: applying e2e4 to the fresh session increases
expected_move_num from 1 to 2. -/
theorem c5_witness :
    expected_move_num toySession1 = expected_move_num toySession0 + 1 :=
  (c5_expected_move_num_invariant toyRules).2 toySession0 toySession1 (str "e2e4")
    (by decide)

/-- Claim C6, witness: the illegal pawn jump e2e5 fails and leaves the
session untouched. -/
theorem c6_witness :
    (apply_move toyRules toySession0 (str "e2e5")).1 = toySession0 :=
  (c6_apply_move_failure toyRules toySession0 (str "e2e5")).2 (by decide)

/-- Claim C7, witness: an inbound NEW W proposal under auto-accept moves the
engine to GameActive as Black with the minted timestamp as game id and an
acceptance transmission carrying B. -/
theorem c7_witness :
    (handleNewProposal toyRules toyCfg (str "202506011430")
        ⟨EngineState.no_game, none, []⟩
        ⟨str "SWL", str "CALLSIGN", .new_proposal, some ['W'], none, none, none, none,
          none⟩).1.state = EngineState.game_active ∧
    (∃ g, (handleNewProposal toyRules toyCfg (str "202506011430")
        ⟨EngineState.no_game, none, []⟩
        ⟨str "SWL", str "CALLSIGN", .new_proposal, some ['W'], none, none, none, none,
          none⟩).1.game = some g ∧
      g.localColor = (if 'W' = 'W' then false else true) ∧
      g.gameId = str "202506011430" ∧ g.gameId.length = 12 ∧
      g.localCallsign = upperL toyCfg.local_callsign ∧
      g.remoteCallsign = upperL toyCfg.remote_callsign ∧
      g.board = toyRules.init ∧ g.moveStack = []) ∧
    (handleNewProposal toyRules toyCfg (str "202506011430")
        ⟨EngineState.no_game, none, []⟩
        ⟨str "SWL", str "CALLSIGN", .new_proposal, some ['W'], none, none, none, none,
          none⟩).1.lastPositionMoves = [] ∧
    Effect.send toyCfg.remote_callsign
        (fmt_acceptance toyCfg.local_callsign toyCfg.remote_callsign (str "202506011430")
          (if 'W' = 'W' then str "B" else str "W")) ∈
      (handleNewProposal toyRules toyCfg (str "202506011430")
        ⟨EngineState.no_game, none, []⟩
        ⟨str "SWL", str "CALLSIGN", .new_proposal, some ['W'], none, none, none, none,
          none⟩).2 :=
  c7_auto_accept_proposal toyRules toyCfg (str "202506011430")
    ⟨EngineState.no_game, none, []⟩
    ⟨str "SWL", str "CALLSIGN", .new_proposal, some ['W'], none, none, none, none, none⟩
    'W' rfl rfl rfl (Or.inl rfl) ⟨by decide, by decide⟩

/-- Claim C8, witness: a resync request against a foreign game id draws
ERR05 and leaves the engine unchanged. -/
theorem c8_witness :
    handleResyncRequest toyRules toyCfg toyEngine1
      ⟨str "SWL", str "CALLSIGN", .resync_request, none, some (str "999906011430"), none,
        none, none, some 2⟩ =
      (toyEngine1, sendErrorEffects toyCfg errDesync) :=
  (c8_resync_request_handling toyRules toyCfg toyEngine1
    ⟨str "SWL", str "CALLSIGN", .resync_request, none, some (str "999906011430"), none,
      none, none, some 2⟩ toySession1 2 rfl rfl).1 (by decide)

/-- Claim C9, witness: the scenario evaluated with the concrete opening
move e2e4 from the fresh session. -/
theorem c9_witness :
    applyAndTransmitLocalMove toyRules toyCfg toySession0 (str "e2e4") =
      ((apply_move toyRules toySession0 (str "e2e4")).1,
       [Effect.uciOut (str "info string TX: " ++
          fmt_move toyCfg.local_callsign toyCfg.remote_callsign
            (expected_move_num toySession0) (str "e2e4")),
        Effect.send toyCfg.remote_callsign
          (fmt_move toyCfg.local_callsign toyCfg.remote_callsign
            (expected_move_num toySession0) (str "e2e4"))],
       true) ∧
    retransmitLastLocalMove toyRules toyCfg
        ⟨EngineState.game_active, some (apply_move toyRules toySession0 (str "e2e4")).1, []⟩ =
      [Effect.uciOut (str "info string RETRY TX: " ++
         fmt_move toyCfg.local_callsign toyCfg.remote_callsign
           (expected_move_num toySession0) (str "e2e4")),
       Effect.send toyCfg.remote_callsign
         (fmt_move toyCfg.local_callsign toyCfg.remote_callsign
           (expected_move_num toySession0) (str "e2e4"))] ∧
    (∀ k, sendCount (awaitLoop toyRules toyCfg
        ⟨EngineState.game_active, some (apply_move toyRules toySession0 (str "e2e4")).1, []⟩
        toyCfg.move_response_wait_seconds toyCfg.max_retries
        (List.replicate k RadioEvent.empty)).2.1 ≤ toyCfg.max_retries) ∧
    (∃ k, awaitLoop toyRules toyCfg
        ⟨EngineState.game_active, some (apply_move toyRules toySession0 (str "e2e4")).1, []⟩
        toyCfg.move_response_wait_seconds toyCfg.max_retries
        (List.replicate k RadioEvent.empty) =
      (⟨EngineState.game_active, some (apply_move toyRules toySession0 (str "e2e4")).1, []⟩,
       timeoutTrace toyRules toyCfg
         ⟨EngineState.game_active, some (apply_move toyRules toySession0 (str "e2e4")).1, []⟩
         toyCfg.max_retries,
       some none)) ∧
    goFinish none = [Effect.uciOut (str "bestmove 0000")] :=
  c9_timeout_retransmission toyRules toyCfg toySession0 (str "e2e4") (str "e2e4") []
    rfl (by decide) rfl

/-- Claim C10, witness: a NEW proposal arriving while the game is active is
dropped with no state change and no transmission. -/
theorem c10_witness :
    handleNewProposal toyRules toyCfg (str "202506011430") toyEngine1
      ⟨str "SWL", str "CALLSIGN", .new_proposal, some ['W'], none, none, none, none, none⟩ =
      (toyEngine1, []) :=
  c10_proposal_ignored_when_game_active toyRules toyCfg (str "202506011430") toyEngine1
    ⟨str "SWL", str "CALLSIGN", .new_proposal, some ['W'], none, none, none, none, none⟩ rfl

end JS8Chess
